import Mathlib

/-!
Verification of the proxy-aware HTTPS client (`main.go` of `poc-proxy-https`).

The program is embedded shallowly:

* Strings are modelled as `List Char` (the inputs of interest are ASCII, so
  Go's byte-wise operations and the character-wise model coincide; where the
  byte level matters — UTF-8 encoding before base64 — it is modelled
  explicitly).
* `strings.Split(proxy, "://")` is embedded as `splitSep`, and the unchecked
  indexing `parsedProxy[1]` as `resolveProxy`, whose `runtimePanic` result
  models the Go runtime panic raised by an out-of-range slice index.
* `http.NewRequest` / `url.Parse` are embedded down to `url.getscheme`, the
  validation path the analysed inputs exercise.
* The network is external: the two effectful points of `main`
  (`client.Do` and `ioutil.ReadAll`) are parameters of `mainRun`, supplied
  by a `NetWorld` value.
* The CONNECT-tunneling transport is the patched `net/http` tree provisioned
  by the repository's Dockerfile and is not available under `src/`; the
  definitions marked `Modelled from the spec:` embed its contract from the
  specification instead.
-/

/-- `consHead c l` prepends `c` to the first piece of a non-empty list of
pieces (`[[c]]` when there is no piece).  Helper for `splitSep`. -/
def consHead (c : Char) : List (List Char) → List (List Char)
  | [] => [[c]]
  | p :: ps => (c :: p) :: ps

/-- Embedding of `strings.Split(s, "://")` from `main.go`: Go's `Split`
cuts `s` around each leftmost non-overlapping occurrence of the separator
`"://"`; on a separator-free string it returns the one-element list `[s]`. -/
def splitSep : List Char → List (List Char)
  | [] => [[]]
  | [c] => [[c]]
  | [c, d] => [[c, d]]
  | c :: d :: e :: rest =>
    if c = ':' ∧ d = '/' ∧ e = '/' then [] :: splitSep rest
    else consHead c (splitSep (d :: e :: rest))

/-- `containsSep s` holds iff `s` contains the scheme delimiter `"://"`
(Go `strings.Contains(s, "://")`). -/
def containsSep : List Char → Bool
  | [] => false
  | [_] => false
  | [_, _] => false
  | c :: d :: e :: rest =>
    if c = ':' ∧ d = '/' ∧ e = '/' then true else containsSep (d :: e :: rest)

/-- The proxy target built by `main.go` (`url.URL{Scheme: proxyScheme,
Host: proxyHost}`): the two pieces taken from the split specifier.  The
host piece keeps Go's combined `host:port` form. -/
structure ProxyTarget where
  scheme : List Char
  host : List Char
deriving DecidableEq

/-- Outcome of the proxy-specifier handling in `main.go`:
`parsedProxy := strings.Split(proxy, "://"); proxyScheme := parsedProxy[0];
proxyHost := parsedProxy[1]`.  When the split yields fewer than two pieces
the indexing `parsedProxy[1]` is out of range, which in Go is a runtime
panic — modelled by `runtimePanic`. -/
inductive ProxyResult where
  | runtimePanic
  | ok (t : ProxyTarget)
deriving DecidableEq

/-- Embedding of `main.go` lines 30–40: split the `-proxy` flag on `"://"`
and read pieces 0 and 1. -/
def resolveProxy (proxy : List Char) : ProxyResult :=
  match splitSep proxy with
  | p0 :: p1 :: _ => .ok ⟨p0, p1⟩
  | _ => .runtimePanic

theorem consHead_ne_nil (c : Char) (l : List (List Char)) : consHead c l ≠ [] := by
  cases l <;> simp [consHead]

theorem length_consHead_of_ne_nil (c : Char) (l : List (List Char)) (h : l ≠ []) :
    (consHead c l).length = l.length := by
  cases l with
  | nil => exact absurd rfl h
  | cons p ps => simp [consHead]

theorem splitSep_ne_nil (s : List Char) : splitSep s ≠ [] := by
  induction s using splitSep.induct with
  | case1 => simp [splitSep]
  | case2 c => simp [splitSep]
  | case3 c d => simp [splitSep]
  | case4 c d e rest hcond ih =>
    simp only [splitSep, if_pos hcond]
    simp
  | case5 c d e rest hcond ih =>
    simp only [splitSep, if_neg hcond]
    exact consHead_ne_nil _ _

theorem splitSep_of_not_containsSep (s : List Char) (h : containsSep s = false) :
    splitSep s = [s] := by
  induction s using splitSep.induct with
  | case1 => rfl
  | case2 c => rfl
  | case3 c d => rfl
  | case4 c d e rest hcond ih =>
    simp only [containsSep, if_pos hcond] at h
    exact absurd h (by simp)
  | case5 c d e rest hcond ih =>
    simp only [containsSep, if_neg hcond] at h
    simp only [splitSep, if_neg hcond, ih h, consHead]

theorem two_le_length_splitSep_of_containsSep (s : List Char)
    (h : containsSep s = true) : 2 ≤ (splitSep s).length := by
  induction s using splitSep.induct with
  | case1 => simp [containsSep] at h
  | case2 c => simp [containsSep] at h
  | case3 c d => simp [containsSep] at h
  | case4 c d e rest hcond ih =>
    simp only [splitSep, if_pos hcond, List.length_cons]
    have := splitSep_ne_nil rest
    have : 0 < (splitSep rest).length := List.length_pos.mpr this
    omega
  | case5 c d e rest hcond ih =>
    simp only [containsSep, if_neg hcond] at h
    have h2 := ih h
    have hne : splitSep (d :: e :: rest) ≠ [] := splitSep_ne_nil _
    simp only [splitSep, if_neg hcond, length_consHead_of_ne_nil _ _ hne]
    exact h2

theorem resolveProxy_of_splitSep (p : List Char) (a b : List Char)
    (r : List (List Char)) (h : splitSep p = a :: b :: r) :
    resolveProxy p = .ok ⟨a, b⟩ := by
  unfold resolveProxy
  rw [h]

/-- Result of `url.getscheme` (`net/url`): `missingScheme` is the error
`missing protocol scheme` raised when the first character is `':'`;
`schemeFound` carries the scheme and the remainder after the colon;
`noScheme` covers every return that leaves the raw URL scheme-less. -/
inductive SchemeSplit where
  | missingScheme
  | noScheme
  | schemeFound (scheme rest : List Char)
deriving DecidableEq

/-- Loop of `url.getscheme`: scan characters left to right; letters extend
the scheme candidate; digits and `+ - .` extend it except in first
position (where the string is declared scheme-less); `':'` terminates the
scheme, or is an error in first position; any other character means no
scheme.  `isFirst` tracks `i == 0` of the Go loop. -/
def getschemeLoop (acc : List Char) (isFirst : Bool) : List Char → SchemeSplit
  | [] => .noScheme
  | c :: rest =>
    if ('a' ≤ c ∧ c ≤ 'z') ∨ ('A' ≤ c ∧ c ≤ 'Z') then
      getschemeLoop (acc ++ [c]) false rest
    else if ('0' ≤ c ∧ c ≤ '9') ∨ c = '+' ∨ c = '-' ∨ c = '.' then
      if isFirst then .noScheme else getschemeLoop (acc ++ [c]) false rest
    else if c = ':' then
      if isFirst then .missingScheme else .schemeFound acc rest
    else .noScheme

/-- Embedding of `url.getscheme(rawurl)`. -/
def getscheme (s : List Char) : SchemeSplit := getschemeLoop [] true s

/-- The outbound request of `main.go`: `http.NewRequest("GET", dest, nil)`
plus any headers added afterwards.  Header names and values are kept as
character lists; `Proxy-Authorization` is already in Go's canonical
header-key form, so `Header.Add` stores it verbatim. -/
structure Request where
  method : String
  url : String
  headers : List (List Char × List Char)
deriving DecidableEq

/-- Embedding of `req, _ := http.NewRequest("GET", dest, nil)` in `main.go`:
`none` models the `(nil, err)` return.  URL validation is modelled down to
`url.getscheme`'s `missing protocol scheme` error, the `url.Parse` error
path the analysed inputs exercise; further `url.Parse` error paths are not
modelled and every destination considered below either fails the scheme
check or is a plain well-formed absolute URL. -/
def newRequestModel (dest : String) : Option Request :=
  match getscheme dest.data with
  | .missingScheme => none
  | _ => some { method := "GET", url := dest, headers := [] }

/-- UTF-8 encoding of one character (Go `[]byte(string)` conversion). -/
def utf8EncodeChar (c : Char) : List Nat :=
  let n := c.toNat
  if n < 0x80 then [n]
  else if n < 0x800 then
    [0xC0 ||| (n >>> 6), 0x80 ||| (n &&& 0x3F)]
  else if n < 0x10000 then
    [0xE0 ||| (n >>> 12), 0x80 ||| ((n >>> 6) &&& 0x3F), 0x80 ||| (n &&& 0x3F)]
  else
    [0xF0 ||| (n >>> 18), 0x80 ||| ((n >>> 12) &&& 0x3F),
     0x80 ||| ((n >>> 6) &&& 0x3F), 0x80 ||| (n &&& 0x3F)]

/-- UTF-8 encoding of a character list (Go `[]byte(auth)`). -/
def utf8Encode (s : List Char) : List Nat := s.flatMap utf8EncodeChar

/-- The standard base64 alphabet used by Go's `base64.StdEncoding`. -/
def b64Alphabet : List Char :=
  "ABCDEFGHIJKLMNOPQRSTUVWXYZabcdefghijklmnopqrstuvwxyz0123456789+/".data

/-- Character of the standard base64 alphabet at index `n`. -/
def b64Char (n : Nat) : Char := b64Alphabet.getD n 'A'

/-- Embedding of `base64.StdEncoding.EncodeToString`: three input bytes
become four alphabet characters; a final group of one or two bytes is
padded with `'='`. -/
def base64Encode : List Nat → List Char
  | [] => []
  | [b1] => [b64Char (b1 >>> 2), b64Char ((b1 &&& 3) <<< 4), '=', '=']
  | [b1, b2] =>
    [b64Char (b1 >>> 2), b64Char (((b1 &&& 3) <<< 4) ||| (b2 >>> 4)),
     b64Char ((b2 &&& 15) <<< 2), '=']
  | b1 :: b2 :: b3 :: rest =>
    b64Char (b1 >>> 2) :: b64Char (((b1 &&& 3) <<< 4) ||| (b2 >>> 4)) ::
    b64Char (((b2 &&& 15) <<< 2) ||| (b3 >>> 6)) :: b64Char (b3 &&& 63) ::
    base64Encode rest

/-- Embedding of `main.go` lines 48–52: `auth := fmt.Sprintf("%s:%s", user,
password)` and `"Basic " + base64.StdEncoding.EncodeToString([]byte(auth))`. -/
def basicAuthValue (user password : String) : List Char :=
  "Basic ".data ++ base64Encode (utf8Encode (user.data ++ ':' :: password.data))

/-- Embedding of `req.Header.Add("Proxy-Authorization", basic)`. -/
def setBasicAuth (r : Request) (user password : String) : Request :=
  { r with headers := r.headers ++ [("Proxy-Authorization".data, basicAuthValue user password)] }

/-- The four command-line inputs of `main.go`. -/
structure Invocation where
  proxy : String
  user : String
  password : String
  dest : String
deriving DecidableEq

/-- The request as it stands when `client.Do(req)` runs: `http.NewRequest`
followed by the conditional `if user != "" && password != ""` header
addition of `main.go`.  `none` propagates the ignored `NewRequest` failure
(`req` is `nil`). -/
def builtRequest (inv : Invocation) : Option Request :=
  match newRequestModel inv.dest with
  | none => none
  | some r =>
    if inv.user ≠ "" ∧ inv.password ≠ "" then some (setBasicAuth r inv.user inv.password)
    else some r

/-- The response value `main.go` receives from `client.Do`: Go
`resp.StatusCode` and the bytes of `resp.Body`. -/
structure Response where
  statusCode : Nat
  body : List Nat
deriving DecidableEq

/-- Outcome of the external `client.Do` call. -/
inductive DoResult where
  | failed
  | ok (resp : Response)
deriving DecidableEq

/-- Outcome of the external `ioutil.ReadAll(resp.Body)` call: the body is
either delivered in full or the read fails. -/
inductive ReadOutcome where
  | clean
  | truncated
deriving DecidableEq

/-- The environment of one invocation: results of the two effectful calls
of `main.go`.  The constructed request influences the exchange only through
this value, since the network is outside the program. -/
structure NetWorld where
  doResult : DoResult
  readOutcome : ReadOutcome
deriving DecidableEq

/-- How one run of `main` ends.  `runtimePanic` covers the Go runtime
panics (out-of-range slice index; nil-pointer dereference of the `nil`
request, which happens at `req.Header.Add` when credentials are set and at
`client.Do(req)` otherwise).  The other three constructors are the normal
returns from `main`: after printing `error: ...`, after printing the
body-read error, or after printing status code and body. -/
inductive MainOutcome where
  | runtimePanic
  | errorReturn
  | readErrorReturn
  | success (code : Nat) (body : List Nat)
deriving DecidableEq

/-- Embedding of the control flow of `main` in `main.go`: split the proxy
specifier (panicking when it has no `"://"`), build the request (the
ignored `NewRequest` error leaves `req` nil, and the later dereference
panics whether or not credentials are present), run `client.Do`, read the
body, print. -/
def mainRun (inv : Invocation) (w : NetWorld) : MainOutcome :=
  match resolveProxy inv.proxy.data with
  | .runtimePanic => .runtimePanic
  | .ok _ =>
    match builtRequest inv with
    | none => .runtimePanic
    | some _ =>
      match w.doResult with
      | .failed => .errorReturn
      | .ok resp =>
        match w.readOutcome with
        | .truncated => .readErrorReturn
        | .clean => .success resp.statusCode resp.body

/-- Process exit status of one run: a Go program exits with status 2 on an
unrecovered panic and with status 0 when `main` returns, which it does on
every non-panic path of `main.go` (each failure branch merely prints and
`return`s). -/
def exitCode : MainOutcome → Nat
  | .runtimePanic => 2
  | _ => 0

/-- The `http.Transport` value built in `main.go` lines 42–45: proxy URL
from the split pieces and `TLSClientConfig: &tls.Config{InsecureSkipVerify:
true}` — the skip-verification field is the literal `true`, taken from no
input. -/
structure TransportConfig where
  proxyScheme : List Char
  proxyHost : List Char
  insecureSkipVerify : Bool
deriving DecidableEq

/-- Embedding of the transport construction of `main.go` lines 39–45. -/
def mkTransport (t : ProxyTarget) : TransportConfig :=
  { proxyScheme := t.scheme, proxyHost := t.host, insecureSkipVerify := true }

/-- A CONNECT request sent to the proxy: target `host:port` line and the
headers written with it. -/
structure ConnectRequest where
  target : List Char
  headers : List (List Char × List Char)
deriving DecidableEq

/-- Modelled from the spec: the CONNECT preamble of the Tunneling Transport
(the patched `net/http` transport built by the Dockerfile, absent from
`src/`) — `send CONNECT <destination-host>:<destination-port> HTTP/1.1 to
the proxy, including every header present on the original request (notably
Proxy-Authorization) on the CONNECT request itself`. -/
def connectRequestFor (r : Request) (destHostPort : List Char) : ConnectRequest :=
  { target := destHostPort, headers := r.headers }

/-- What the Tunneling Transport does with a request: forward it plainly or
open a CONNECT tunnel carrying a CONNECT request. -/
inductive TransportAction where
  | plainForward (r : Request)
  | tunnel (c : ConnectRequest) (r : Request)
deriving DecidableEq

/-- Modelled from the spec: steps 2–3 of the Tunneling Transport's
connection-establishment algorithm (absent from `src/`) — a plain HTTP
destination is forwarded directly, an HTTPS destination gets a CONNECT
tunnel whose CONNECT request carries the original request's headers. -/
def transportSendAction (r : Request) (destScheme destHostPort : List Char) :
    TransportAction :=
  if destScheme = "https".data then .tunnel (connectRequestFor r destHostPort) r
  else .plainForward r

/-- Modelled from the spec: outcome of the tunnel exchange (absent from
`src/`) — on a 2xx CONNECT reply the TLS session is spliced over the
stream and the destination's response comes back unchanged; on a non-2xx
reply the transport fails (`ProxyAuthError`). -/
def tunnelExchange (connectStatus : Nat) (destResp : Response) : DoResult :=
  if 200 ≤ connectStatus ∧ connectStatus < 300 then .ok destResp else .failed

theorem newRequestModel_some_eq (d : String) (r : Request)
    (h : newRequestModel d = some r) : r = { method := "GET", url := d, headers := [] } := by
  unfold newRequestModel at h
  cases hg : getscheme d.data <;> rw [hg] at h <;> simp_all

theorem builtRequest_creds (inv : Invocation) (r : Request)
    (hn : newRequestModel inv.dest = some r)
    (hu : inv.user ≠ "") (hp : inv.password ≠ "") :
    builtRequest inv = some (setBasicAuth r inv.user inv.password) := by
  simp [builtRequest, hn, hu, hp]

theorem builtRequest_no_creds (inv : Invocation) (r : Request)
    (hn : newRequestModel inv.dest = some r)
    (hc : ¬ (inv.user ≠ "" ∧ inv.password ≠ "")) :
    builtRequest inv = some r := by
  simp only [builtRequest, hn, if_neg hc]

theorem builtRequest_some_cases (inv : Invocation) (r : Request)
    (h : builtRequest inv = some r) :
    ∃ r0, newRequestModel inv.dest = some r0 ∧ r0.headers = [] ∧
      ((inv.user ≠ "" ∧ inv.password ≠ "" ∧ r = setBasicAuth r0 inv.user inv.password) ∨
       (¬ (inv.user ≠ "" ∧ inv.password ≠ "") ∧ r = r0)) := by
  unfold builtRequest at h
  cases hn : newRequestModel inv.dest <;> rw [hn] at h
  · simp at h
  · rename_i r0
    refine ⟨r0, rfl, ?_, ?_⟩
    · rw [newRequestModel_some_eq _ _ hn]
    · have h2 : (if inv.user ≠ "" ∧ inv.password ≠ ""
          then some (setBasicAuth r0 inv.user inv.password) else some r0) = some r := h
      by_cases hc : inv.user ≠ "" ∧ inv.password ≠ ""
      · rw [if_pos hc] at h2
        exact Or.inl ⟨hc.1, hc.2, (Option.some.inj h2).symm⟩
      · rw [if_neg hc] at h2
        exact Or.inr ⟨hc, (Option.some.inj h2).symm⟩

/-- Claim C2 (code_bug): on a proxy specifier without `"://"` — including
the empty string and the `IP:PORT` form the README's run instructions use —
`strings.Split` yields a single piece, so `parsedProxy[1]` is an
out-of-range index and the program panics instead of producing the
`ConfigError` the specification promises. -/
theorem proxy_split_missing_sep_panics :
    resolveProxy "127.0.0.1:9050".data = .runtimePanic ∧
    resolveProxy "".data = .runtimePanic := by
  constructor <;> decide

/-- Claim C3 (code_bug): for a destination URL that is not a valid absolute
URI (here `"://bad"`, rejected by `url.getscheme` with `missing protocol
scheme`), `main.go` discards the `http.NewRequest` error (`req, _ :=`) and
later dereferences the `nil` request, panicking regardless of the network
world; no `ConfigError` is reported.  For the empty destination URL the
program does not fail at configuration time at all: it proceeds to the
`client.Do` exchange phase. -/
theorem dest_parse_error_panics :
    mainRun ⟨"http://127.0.0.1:9050", "alice", "s3cret", "://bad"⟩
        ⟨.failed, .clean⟩ = .runtimePanic ∧
    mainRun ⟨"http://127.0.0.1:9050", "alice", "s3cret", "://bad"⟩
        ⟨.ok ⟨200, []⟩, .clean⟩ = .runtimePanic ∧
    mainRun ⟨"http://127.0.0.1:9050", "alice", "s3cret", ""⟩
        ⟨.failed, .clean⟩ = .errorReturn := by
  refine ⟨by decide, by decide, by decide⟩

/-- Claim C8 (confirmed): a well-formed `scheme://host:port` proxy
specifier — scheme one of the spec's `http`/`https` enum, `host:port`
free of the delimiter `"://"` — resolves to exactly the given scheme and
exactly the given `host:port` piece. -/
theorem wellformed_specifier_extracts :
    ∀ (sch hp : List Char), (sch = "http".data ∨ sch = "https".data) →
      containsSep hp = false →
      resolveProxy (sch ++ "://".data ++ hp) = .ok ⟨sch, hp⟩ := by
  intro sch hp hs hnp
  have hx := splitSep_of_not_containsSep hp hnp
  rcases hs with h | h <;> subst h
  · have e1 : splitSep ("http".data ++ "://".data ++ hp) = "http".data :: splitSep hp := rfl
    rw [hx] at e1
    exact resolveProxy_of_splitSep _ _ _ _ e1
  · have e1 : splitSep ("https".data ++ "://".data ++ hp) = "https".data :: splitSep hp := rfl
    rw [hx] at e1
    exact resolveProxy_of_splitSep _ _ _ _ e1

theorem wellformed_specifier_extracts_witness :
    (("http".data = "http".data ∨ "http".data = "https".data) ∧
      containsSep "127.0.0.1:9050".data = false) ∧
    resolveProxy ("http".data ++ "://".data ++ "127.0.0.1:9050".data) =
      .ok ⟨"http".data, "127.0.0.1:9050".data⟩ :=
  ⟨⟨Or.inl rfl, by decide⟩,
   wellformed_specifier_extracts "http".data "127.0.0.1:9050".data
     (Or.inl rfl) (by decide)⟩

/-- The ProxyTarget invariant stated by the specification's data model:
non-empty host and scheme drawn from the `http`/`https` enum. -/
def targetWellFormed (t : ProxyTarget) : Prop :=
  t.host ≠ [] ∧ (t.scheme = "http".data ∨ t.scheme = "https".data)

instance (t : ProxyTarget) : Decidable (targetWellFormed t) := by
  unfold targetWellFormed
  infer_instance

/-- Claim C10 counterexample: the specifier `"ftp://"` resolves to a
`ProxyTarget` with scheme `ftp` and empty host, violating both halves of
the stated invariant. -/
theorem invariant_violated_at_ftp :
    resolveProxy "ftp://".data = .ok ⟨"ftp".data, []⟩ ∧
    ¬ targetWellFormed ⟨"ftp".data, []⟩ := by
  constructor <;> decide

/-- Claim C10 amended (corrected): the Config Resolver checks no invariant
at all — every specifier containing `"://"` yields a `ProxyTarget` built
verbatim from the first two split pieces, whatever scheme or host they
hold. -/
theorem resolver_performs_no_validation :
    ∀ p : List Char, containsSep p = true → ∃ t, resolveProxy p = .ok t := by
  intro p h
  have h2 := two_le_length_splitSep_of_containsSep p h
  cases hl : splitSep p with
  | nil => rw [hl] at h2; simp at h2
  | cons a t =>
    cases t with
    | nil => rw [hl] at h2; simp at h2
    | cons b r => exact ⟨⟨a, b⟩, resolveProxy_of_splitSep p a b r hl⟩

theorem resolver_performs_no_validation_witness :
    containsSep "ftp://".data = true ∧ ∃ t, resolveProxy "ftp://".data = .ok t :=
  ⟨by decide, resolver_performs_no_validation "ftp://".data (by decide)⟩

/-- Claim C4 (confirmed): with both credentials supplied the request built
by `main.go` carries the header `Proxy-Authorization: Basic <base64 of
user:password>` — e.g. `Basic YWxpY2U6czNjcmV0` for `alice`/`s3cret` — and
with credentials absent the built request carries no such header. -/
theorem basic_auth_header_correct :
    (∀ (inv : Invocation) (r : Request),
        inv.user ≠ "" → inv.password ≠ "" → newRequestModel inv.dest = some r →
        builtRequest inv = some (setBasicAuth r inv.user inv.password) ∧
        (setBasicAuth r inv.user inv.password).headers =
          r.headers ++ [("Proxy-Authorization".data,
            "Basic ".data ++
              base64Encode (utf8Encode (inv.user.data ++ ':' :: inv.password.data)))]) ∧
    basicAuthValue "alice" "s3cret" = "Basic YWxpY2U6czNjcmV0".data ∧
    (∀ (inv : Invocation) (r : Request),
        inv.user = "" → inv.password = "" → builtRequest inv = some r →
        ∀ v, ("Proxy-Authorization".data, v) ∉ r.headers) := by
  refine ⟨?_, by decide, ?_⟩
  · intro inv r hu hp hn
    exact ⟨builtRequest_creds inv r hn hu hp, rfl⟩
  · intro inv r hu hp h
    obtain ⟨r0, hn, hh, hcase⟩ := builtRequest_some_cases inv r h
    rcases hcase with ⟨hu2, _, _⟩ | ⟨_, hr⟩
    · exact absurd hu hu2
    · subst hr
      rw [hh]
      intro v hv
      simp at hv

theorem basic_auth_header_correct_witness :
    (("alice" : String) ≠ "" ∧ ("s3cret" : String) ≠ "" ∧
      newRequestModel "https://example.test/" =
        some ⟨"GET", "https://example.test/", []⟩) ∧
    (builtRequest ⟨"http://127.0.0.1:9050", "alice", "s3cret", "https://example.test/"⟩ =
        some (setBasicAuth ⟨"GET", "https://example.test/", []⟩ "alice" "s3cret") ∧
      (setBasicAuth ⟨"GET", "https://example.test/", []⟩ "alice" "s3cret").headers =
        (⟨"GET", "https://example.test/", []⟩ : Request).headers ++
          [("Proxy-Authorization".data,
            "Basic ".data ++ base64Encode (utf8Encode ("alice".data ++ ':' :: "s3cret".data)))]) :=
  ⟨⟨by decide, by decide, rfl⟩,
   basic_auth_header_correct.1
     ⟨"http://127.0.0.1:9050", "alice", "s3cret", "https://example.test/"⟩
     ⟨"GET", "https://example.test/", []⟩ (by decide) (by decide) rfl⟩

/-- Claim C9 (confirmed): when exactly one of username and password is
supplied, `main.go`'s condition `user != "" && password != ""` is false, so
the pair is treated as no credentials: the built request has no
`Proxy-Authorization` header and no error is raised. -/
theorem single_credential_treated_as_none :
    ∀ (inv : Invocation) (r : Request),
      ((inv.user ≠ "" ∧ inv.password = "") ∨ (inv.user = "" ∧ inv.password ≠ "")) →
      newRequestModel inv.dest = some r →
      builtRequest inv = some r ∧ ∀ v, ("Proxy-Authorization".data, v) ∉ r.headers := by
  intro inv r hcred hn
  have hc : ¬ (inv.user ≠ "" ∧ inv.password ≠ "") := by
    rcases hcred with ⟨_, h2⟩ | ⟨h1, _⟩
    · exact fun hx => hx.2 h2
    · exact fun hx => hx.1 h1
  refine ⟨builtRequest_no_creds inv r hn hc, ?_⟩
  rw [newRequestModel_some_eq _ _ hn]
  intro v hv
  simp at hv

theorem single_credential_treated_as_none_witness :
    ((("alice" : String) ≠ "" ∧ ("" : String) = "") ∨
      (("alice" : String) = "" ∧ ("" : String) ≠ "")) ∧
    newRequestModel "https://example.test/" = some ⟨"GET", "https://example.test/", []⟩ ∧
    (builtRequest ⟨"http://127.0.0.1:9050", "alice", "", "https://example.test/"⟩ =
        some ⟨"GET", "https://example.test/", []⟩ ∧
      ∀ v, ("Proxy-Authorization".data, v) ∉
        (⟨"GET", "https://example.test/", []⟩ : Request).headers) :=
  ⟨Or.inl ⟨by decide, rfl⟩, rfl,
   single_credential_treated_as_none
     ⟨"http://127.0.0.1:9050", "alice", "", "https://example.test/"⟩
     ⟨"GET", "https://example.test/", []⟩ (Or.inl ⟨by decide, rfl⟩) rfl⟩

/-- Claim C1 (confirmed, spec-modelled transport): for an HTTPS destination
the CONNECT request the Tunneling Transport sends to the proxy carries
every header of the original request; in particular, when `main.go` has set
credentials, the CONNECT request carries the original request's
`Proxy-Authorization` value. -/
theorem connect_preserves_headers :
    ∀ (inv : Invocation) (r : Request) (hp : List Char),
      inv.user ≠ "" → inv.password ≠ "" → builtRequest inv = some r →
      ∃ c, transportSendAction r "https".data hp = .tunnel c r ∧
        c.headers = r.headers ∧
        (∀ hv ∈ r.headers, hv ∈ c.headers) ∧
        ("Proxy-Authorization".data, basicAuthValue inv.user inv.password) ∈ c.headers := by
  intro inv r hp hu hpw h
  refine ⟨connectRequestFor r hp, ?_, rfl, fun hv hm => hm, ?_⟩
  · unfold transportSendAction
    rw [if_pos rfl]
  · obtain ⟨r0, hn, hh, hcase⟩ := builtRequest_some_cases inv r h
    rcases hcase with ⟨_, _, hr⟩ | ⟨hc, _⟩
    · subst hr
      show ("Proxy-Authorization".data, basicAuthValue inv.user inv.password) ∈
        (setBasicAuth r0 inv.user inv.password).headers
      simp [setBasicAuth]
    · exact absurd ⟨hu, hpw⟩ hc

theorem connect_preserves_headers_witness :
    (("alice" : String) ≠ "" ∧ ("s3cret" : String) ≠ "" ∧
      builtRequest ⟨"http://127.0.0.1:9050", "alice", "s3cret", "https://example.test/"⟩ =
        some (setBasicAuth ⟨"GET", "https://example.test/", []⟩ "alice" "s3cret")) ∧
    (∃ c, transportSendAction (setBasicAuth ⟨"GET", "https://example.test/", []⟩ "alice" "s3cret")
          "https".data "example.test:443".data =
        .tunnel c (setBasicAuth ⟨"GET", "https://example.test/", []⟩ "alice" "s3cret") ∧
      c.headers = (setBasicAuth ⟨"GET", "https://example.test/", []⟩ "alice" "s3cret").headers ∧
      (∀ hv ∈ (setBasicAuth ⟨"GET", "https://example.test/", []⟩ "alice" "s3cret").headers,
        hv ∈ c.headers) ∧
      ("Proxy-Authorization".data, basicAuthValue "alice" "s3cret") ∈ c.headers) :=
  ⟨⟨by decide, by decide, rfl⟩,
   connect_preserves_headers
     ⟨"http://127.0.0.1:9050", "alice", "s3cret", "https://example.test/"⟩
     (setBasicAuth ⟨"GET", "https://example.test/", []⟩ "alice" "s3cret")
     "example.test:443".data (by decide) (by decide) rfl⟩

/-- Claim C5 counterexample: no input whatsoever yields a transport that
verifies certificates — `main.go` hardcodes `InsecureSkipVerify: true`, so
there is no configuration under which verification is performed. -/
theorem insecure_not_configurable :
    ¬ ∃ (inv : Invocation) (t : ProxyTarget),
        resolveProxy inv.proxy.data = .ok t ∧
        (mkTransport t).insecureSkipVerify = false := by
  rintro ⟨inv, t, -, h⟩
  simp [mkTransport] at h

/-- Claim C5 amended (corrected): skipping certificate validation is an
unconditional hardcoded default of the transport `main.go` builds, not a
configurable opt-in — `insecureSkipVerify` is `true` for every target. -/
theorem insecure_always_true :
    ∀ t : ProxyTarget, (mkTransport t).insecureSkipVerify = true :=
  fun _ => rfl

/-- Claim C6 counterexample: an invocation whose `client.Do` fails (proxy
unreachable) ends with the same process exit status 0 as a fully successful
invocation — main prints `error: ...` and returns normally. -/
theorem failing_exit_equals_success_exit :
    mainRun ⟨"http://127.0.0.1:9050", "alice", "s3cret", "https://example.test/"⟩
        ⟨.failed, .clean⟩ = .errorReturn ∧
    mainRun ⟨"http://127.0.0.1:9050", "alice", "s3cret", "https://example.test/"⟩
        ⟨.ok ⟨200, [104, 105]⟩, .clean⟩ = .success 200 [104, 105] ∧
    exitCode (mainRun ⟨"http://127.0.0.1:9050", "alice", "s3cret", "https://example.test/"⟩
        ⟨.failed, .clean⟩) =
      exitCode (mainRun ⟨"http://127.0.0.1:9050", "alice", "s3cret", "https://example.test/"⟩
        ⟨.ok ⟨200, [104, 105]⟩, .clean⟩) := by
  refine ⟨by decide, by decide, by decide⟩

/-- Claim C6 amended (corrected): the exit status distinguishes nothing but
runtime panics — every non-panicking run of `main`, failing or successful,
exits with status 0, because each failure branch prints and returns. -/
theorem exit_status_zero_unless_runtime_panic :
    ∀ (inv : Invocation) (w : NetWorld),
      mainRun inv w = .runtimePanic ∨ exitCode (mainRun inv w) = 0 := by
  intro inv w
  cases h : mainRun inv w <;> simp [exitCode]

/-- Claim C7 (confirmed, spec-modelled tunnel): when the proxy answers the
CONNECT with a 2xx status and the destination serves a response, the
transport hands back exactly the destination's status code and body, and a
run of `main` ends by printing exactly those two values. -/
theorem roundtrip_fidelity :
    ∀ (inv : Invocation) (t : ProxyTarget) (r : Request) (cs : Nat) (resp : Response),
      resolveProxy inv.proxy.data = .ok t →
      builtRequest inv = some r →
      200 ≤ cs → cs < 300 →
      tunnelExchange cs resp = .ok resp ∧
      mainRun inv ⟨tunnelExchange cs resp, .clean⟩ = .success resp.statusCode resp.body := by
  intro inv t r cs resp hres hreq h1 h2
  have he : tunnelExchange cs resp = .ok resp := by
    unfold tunnelExchange
    rw [if_pos ⟨h1, h2⟩]
  refine ⟨he, ?_⟩
  simp [mainRun, hres, hreq, he]

theorem roundtrip_fidelity_witness :
    (resolveProxy ("http://127.0.0.1:9050" : String).data =
        .ok ⟨"http".data, "127.0.0.1:9050".data⟩ ∧
      builtRequest ⟨"http://127.0.0.1:9050", "alice", "s3cret", "https://example.test/"⟩ =
        some (setBasicAuth ⟨"GET", "https://example.test/", []⟩ "alice" "s3cret") ∧
      200 ≤ 200 ∧ 200 < 300) ∧
    (tunnelExchange 200 ⟨200, [104, 105]⟩ = .ok ⟨200, [104, 105]⟩ ∧
      mainRun ⟨"http://127.0.0.1:9050", "alice", "s3cret", "https://example.test/"⟩
        ⟨tunnelExchange 200 ⟨200, [104, 105]⟩, .clean⟩ = .success 200 [104, 105]) :=
  ⟨⟨by decide, rfl, by decide, by decide⟩,
   roundtrip_fidelity
     ⟨"http://127.0.0.1:9050", "alice", "s3cret", "https://example.test/"⟩
     ⟨"http".data, "127.0.0.1:9050".data⟩
     (setBasicAuth ⟨"GET", "https://example.test/", []⟩ "alice" "s3cret")
     200 ⟨200, [104, 105]⟩ (by decide) rfl (by decide) (by decide)⟩
